import Mathlib

/-!
Shallow embedding of the todo application in src/src/app.ts: the task
record, the JSON persistence layer, the collection mutations, the render
projection, and the inline-edit commit path, together with theorems
settling the specification claims about them.
-/

namespace TodoApp

/-- Whitespace test used by the trim embedding (JavaScript
String.prototype.trim removes leading and trailing whitespace). -/
def isWs (c : Char) : Bool := c.isWhitespace

/-- Trimming on character lists: drop leading whitespace, then drop
trailing whitespace. -/
def trimList (l : List Char) : List Char := (l.dropWhile isWs).rdropWhile isWs

/-- Embedding of the .trim() calls in addTodo, updateTodoTitle and commit
(src/src/app.ts lines 44, 64 and 153). -/
def trim (s : String) : String := ⟨trimList s.data⟩

/-- The Todo record, src/src/app.ts lines 3 to 7. -/
structure Todo where
  id : String
  title : String
  completed : Bool
deriving DecidableEq

/-- JSON values: the data stored under the fixed storage key. -/
inductive Json where
  | null : Json
  | bool (b : Bool) : Json
  | num (n : Int) : Json
  | str (s : String) : Json
  | arr (elems : List Json) : Json
  | obj (fields : List (String × Json)) : Json

/-- Observable content of the persisted slot. The key may be absent
(getItem returns null, or the raw text is empty and therefore falsy), the
raw text may fail JSON.parse, or it parses to a JSON value. The textual
layer is abstracted as exact: JSON.stringify output always reparses to
the same JSON value. -/
inductive StoredValue where
  | absent : StoredValue
  | unparsable : StoredValue
  | parsed (j : Json) : StoredValue

/-- Serialization of one task, following the JSON.stringify field order
of the Todo record. -/
def todoToJson (t : Todo) : Json :=
  Json.obj [("id", Json.str t.id), ("title", Json.str t.title),
    ("completed", Json.bool t.completed)]

/-- Serialization of a collection, as JSON.stringify(todos) produces:
a JSON array in collection order (src/src/app.ts line 24). -/
def todosToJson (ts : List Todo) : Json := Json.arr (ts.map todoToJson)

/-- Modelled from the spec: decoder for one well-formed task object,
an object with string id, string title and boolean completed
(spec section 6); app.ts itself performs no such validation. -/
def decodeTodo : Json → Option Todo
  | Json.obj [("id", Json.str i), ("title", Json.str ti),
      ("completed", Json.bool c)] => some { id := i, title := ti, completed := c }
  | _ => none

/-- Decoder for a list of well-formed task objects. -/
def decodeTodoList : List Json → Option (List Todo)
  | [] => some []
  | j :: rest =>
    match decodeTodo j, decodeTodoList rest with
    | some t, some ts => some (t :: ts)
    | _, _ => none

/-- Modelled from the spec: a stored JSON value is a well-formed
collection exactly when this decoder succeeds (spec section 6). -/
def decodeTodos : Json → Option (List Todo)
  | Json.arr elems => decodeTodoList elems
  | _ => none

/-- The mutable module-level state of app.ts that the claims observe:
the todos array, the persisted slot, and counters for how many storage
writes and render passes have happened. -/
structure AppState where
  todos : List Todo
  storage : StoredValue
  writes : Nat
  renders : Nat

/-- saveTodos, src/src/app.ts lines 23 to 25: writes the serialized
collection to the storage slot. -/
def saveTodos (s : AppState) : AppState :=
  { s with storage := StoredValue.parsed (todosToJson s.todos),
           writes := s.writes + 1 }

/-- One render() pass, src/src/app.ts lines 81 to 138, viewed as an
effect on the state: it only counts the pass; its pure projection is
the render function below. -/
def renderStep (s : AppState) : AppState := { s with renders := s.renders + 1 }

/-- loadTodos, src/src/app.ts lines 27 to 37. A falsy raw value yields
the empty array; a JSON.parse failure is caught, logged and yields the
empty array; a successful parse is returned as is, with no shape
validation (the TypeScript cast has no runtime effect), so the result
is an arbitrary JSON value. -/
def loadTodos : StoredValue → Json
  | StoredValue.absent => Json.arr []
  | StoredValue.unparsable => Json.arr []
  | StoredValue.parsed j => j

/-- addTodo, src/src/app.ts lines 43 to 49. The uid() result is passed
in as newId, modelling the random id generator. -/
def addTodo (newId : String) (title : String) (s : AppState) : AppState :=
  let t : Todo := { id := newId, title := trim title, completed := false }
  if t.title = "" then s
  else renderStep (saveTodos { s with todos := t :: s.todos })

/-- removeTodo, src/src/app.ts lines 51 to 55: filters the collection
and unconditionally saves and renders. -/
def removeTodo (id : String) (s : AppState) : AppState :=
  renderStep (saveTodos { s with todos := s.todos.filter (fun t => t.id != id) })

/-- toggleTodo, src/src/app.ts lines 57 to 61. -/
def toggleTodo (id : String) (s : AppState) : AppState :=
  let newTodos := s.todos.map (fun t =>
    if t.id == id then { t with completed := !t.completed } else t)
  renderStep (saveTodos { s with todos := newTodos })

/-- updateTodoTitle, src/src/app.ts lines 63 to 67: sets the trimmed
title on every matching task, with no emptiness check. -/
def updateTodoTitle (id : String) (title : String) (s : AppState) : AppState :=
  let newTodos := s.todos.map (fun t =>
    if t.id == id then { t with title := trim title } else t)
  renderStep (saveTodos { s with todos := newTodos })

/-- commit inside startEdit, src/src/app.ts lines 152 to 156: trims the
edit field value; a truthy (nonempty) result updates the title, an empty
result removes the task. -/
def commit (todoId : String) (editValue : String) (s : AppState) : AppState :=
  let val := trim editValue
  if val ≠ "" then updateTodoTitle todoId val s
  else removeTodo todoId s

/-- The filter union type, src/src/app.ts line 21. -/
inductive Filter where
  | all : Filter
  | active : Filter
  | completed : Filter
deriving DecidableEq

/-- The filter callback inside render, src/src/app.ts lines 86 to 90. -/
def filterPred (currentFilter : Filter) (t : Todo) : Bool :=
  if currentFilter = Filter.active then !t.completed
  else if currentFilter = Filter.completed then t.completed
  else true

/-- The number of tasks with completed=false, src/src/app.ts line 129;
computed from the unfiltered collection. -/
def remainingCount (todos : List Todo) : Nat :=
  (todos.filter (fun t => !t.completed)).length

/-- The outputs of one render pass that the claims observe. -/
structure RenderOutput where
  mainVisible : Bool
  visible : List Todo
  countText : String
  footerVisible : Bool
  toggleAllChecked : Bool

/-- Pure projection of render(), src/src/app.ts lines 81 to 138:
visibility of the main section, the filtered visible list, the
remaining-count text, footer visibility, and the toggle-all state. -/
def render (currentFilter : Filter) (todos : List Todo) : RenderOutput :=
  { mainVisible := todos.length != 0
  , visible := todos.filter (filterPred currentFilter)
  , countText := toString (remainingCount todos) ++ " item" ++
      (if remainingCount todos != 1 then "s" else "") ++ " left"
  , footerVisible := todos.length != 0
  , toggleAllChecked := decide (todos.length > 0) && todos.all (fun t => t.completed) }

theorem dropWhile_head_not_ws : ∀ (l : List Char) {c : Char} {rest : List Char},
    l.dropWhile isWs = c :: rest → isWs c = false
  | [], _, _, h => by simp [List.dropWhile] at h
  | a :: as, c, rest, h => by
    rw [List.dropWhile_cons] at h
    by_cases ha : isWs a = true
    · rw [if_pos ha] at h
      exact dropWhile_head_not_ws as h
    · rw [if_neg ha] at h
      cases h
      simpa using ha

theorem trimList_idem (l : List Char) : trimList (trimList l) = trimList l := by
  unfold trimList
  have hdw : ((l.dropWhile isWs).rdropWhile isWs).dropWhile isWs =
      (l.dropWhile isWs).rdropWhile isWs := by
    cases hc : (l.dropWhile isWs).rdropWhile isWs with
    | nil => simp
    | cons c rest =>
      obtain ⟨t, ht⟩ := List.rdropWhile_prefix isWs (l.dropWhile isWs)
      rw [hc] at ht
      have hd2 : l.dropWhile isWs = c :: (rest ++ t) := by
        rw [← ht]
        simp
      have hnot : isWs c = false := dropWhile_head_not_ws _ hd2
      rw [List.dropWhile_cons, if_neg (by simp [hnot])]
  rw [hdw, List.rdropWhile_idempotent]

theorem trim_idem (s : String) : trim (trim s) = trim s := by
  unfold trim
  exact congrArg String.mk (trimList_idem s.data)

theorem decodeTodoList_encode : ∀ ts : List Todo,
    decodeTodoList (ts.map todoToJson) = some ts
  | [] => rfl
  | t :: ts => by
    have ih := decodeTodoList_encode ts
    simp only [List.map_cons, decodeTodoList, ih]
    rfl

/-- Sample task used by concrete instances. -/
def sampleTask : Todo := { id := "a", title := "Buy milk", completed := false }

/-- Sample state with a single incomplete task. -/
def oneTaskState : AppState :=
  { todos := [sampleTask]
  , storage := StoredValue.absent, writes := 0, renders := 0 }

/-- Sample state with an empty collection and an untouched storage slot. -/
def emptyStartState : AppState :=
  { todos := [], storage := StoredValue.absent, writes := 0, renders := 0 }

/-- Claim C3, counterexample: the stored value null is parsable but is not
a well-formed collection, yet loadTodos returns it as is instead of the
empty collection. -/
theorem loadTodos_nonarray_counterexample :
    loadTodos (StoredValue.parsed Json.null) = Json.null ∧
    decodeTodos Json.null = none ∧
    Json.null ≠ Json.arr [] :=
  ⟨rfl, rfl, fun h => Json.noConfusion h⟩

/-- Claim C3 as amended: load() never raises; an absent key or unparsable
text yields the empty collection; any value that parses is returned as is
with no shape validation, so a well-formed stored collection is returned
intact (but a parsable non-collection value is also passed through). -/
theorem loadTodos_spec (j : Json) (ts : List Todo)
    (h : decodeTodos j = some ts) :
    loadTodos StoredValue.absent = Json.arr [] ∧
    loadTodos StoredValue.unparsable = Json.arr [] ∧
    loadTodos (StoredValue.parsed j) = j ∧
    decodeTodos (loadTodos (StoredValue.parsed j)) = some ts :=
  ⟨rfl, rfl, rfl, h⟩

theorem loadTodos_spec_witness :
    decodeTodos (todosToJson oneTaskState.todos) = some oneTaskState.todos ∧
    (loadTodos StoredValue.absent = Json.arr [] ∧
     loadTodos StoredValue.unparsable = Json.arr [] ∧
     loadTodos (StoredValue.parsed (todosToJson oneTaskState.todos)) =
       todosToJson oneTaskState.todos ∧
     decodeTodos (loadTodos (StoredValue.parsed (todosToJson oneTaskState.todos))) =
       some oneTaskState.todos) :=
  ⟨by decide, loadTodos_spec (todosToJson oneTaskState.todos) oneTaskState.todos
    (by decide)⟩

/-- Claim C4: saving any collection and loading from the resulting stored
value yields a well-formed value that decodes to the identical task
sequence: same ids, titles and completed flags in the same order. -/
theorem save_load_roundtrip (s : AppState) :
    loadTodos (saveTodos s).storage = todosToJson s.todos ∧
    decodeTodos (todosToJson s.todos) = some s.todos :=
  ⟨rfl, decodeTodoList_encode s.todos⟩

/-- Claim C5: addTodo with a title that trims to empty leaves the whole
state unchanged (no task, no persist, no render); otherwise it prepends a
task carrying the freshly generated id, the trimmed title and
completed=false, keeps every existing task, persists and renders. -/
theorem addTodo_spec (s : AppState) (newId raw : String) :
    addTodo newId raw s =
      if trim raw = "" then s
      else
        { todos := { id := newId, title := trim raw, completed := false } :: s.todos
        , storage := StoredValue.parsed (todosToJson
            ({ id := newId, title := trim raw, completed := false } :: s.todos))
        , writes := s.writes + 1, renders := s.renders + 1 } := by
  by_cases h : trim raw = ""
  · simp [addTodo, h]
  · simp [addTodo, renderStep, saveTodos, h]

/-- Claim C1, counterexample: updateTodoTitle with a whitespace-only raw
title is not rejected; it overwrites the matching title with the empty
string, changing the collection. -/
theorem updateTodoTitle_blank_counterexample :
    (updateTodoTitle "a" "   " oneTaskState).todos =
      [{ id := "a", title := "", completed := false }] ∧
    (updateTodoTitle "a" "   " oneTaskState).todos ≠ oneTaskState.todos := by
  decide

/-- Claim C1 as amended: updateTodoTitle performs no emptiness check; a
raw title that trims to empty replaces every matching title with the
empty string and the collection is persisted anyway. The blank-input
guard exists only in the edit commit path, which removes the task
instead of calling updateTodoTitle. -/
theorem updateTodoTitle_blank_spec (s : AppState) (id raw : String)
    (h : trim raw = "") :
    (updateTodoTitle id raw s).todos =
      s.todos.map (fun t => if t.id == id then { t with title := "" } else t) ∧
    (updateTodoTitle id raw s).writes = s.writes + 1 := by
  unfold updateTodoTitle renderStep saveTodos
  simp [h]

theorem updateTodoTitle_blank_spec_witness :
    trim "   " = "" ∧
    ((updateTodoTitle "a" "   " oneTaskState).todos =
      oneTaskState.todos.map
        (fun t => if t.id == "a" then { t with title := "" } else t) ∧
     (updateTodoTitle "a" "   " oneTaskState).writes = oneTaskState.writes + 1) :=
  ⟨by decide, updateTodoTitle_blank_spec oneTaskState "a" "   " (by decide)⟩

/-- Claim C2, counterexample: removing an id absent from an empty
collection leaves the collection unchanged, yet a storage write happens
(the write counter moves), so the persist is not skipped. -/
theorem removeTodo_absent_persists_counterexample :
    (removeTodo "x" emptyStartState).todos = emptyStartState.todos ∧
    (removeTodo "x" emptyStartState).writes ≠ emptyStartState.writes := by
  decide

/-- Claim C2 as amended: removeTodo on an absent id leaves the collection
element-wise unchanged, but the write to persistent storage is not
skipped: the unchanged collection is re-persisted and a render pass still
happens. -/
theorem removeTodo_absent_spec (s : AppState) (id : String)
    (h : ∀ t ∈ s.todos, t.id ≠ id) :
    (removeTodo id s).todos = s.todos ∧
    (removeTodo id s).storage = StoredValue.parsed (todosToJson s.todos) ∧
    (removeTodo id s).writes = s.writes + 1 ∧
    (removeTodo id s).renders = s.renders + 1 := by
  have hf : s.todos.filter (fun t => t.id != id) = s.todos := by
    rw [List.filter_eq_self]
    intro a ha
    simpa using h a ha
  unfold removeTodo renderStep saveTodos
  simp [hf]

theorem removeTodo_absent_spec_witness :
    (∀ t ∈ emptyStartState.todos, t.id ≠ "x") ∧
    ((removeTodo "x" emptyStartState).todos = emptyStartState.todos ∧
     (removeTodo "x" emptyStartState).storage =
       StoredValue.parsed (todosToJson emptyStartState.todos) ∧
     (removeTodo "x" emptyStartState).writes = emptyStartState.writes + 1 ∧
     (removeTodo "x" emptyStartState).renders = emptyStartState.renders + 1) :=
  ⟨by decide, removeTodo_absent_spec emptyStartState "x" (by decide)⟩

/-- Claim C8: the visible projection keeps collection order (it is a
sublist of the collection for every filter); under all it is the whole
collection, under active exactly the tasks with completed=false, under
completed exactly the tasks with completed=true. -/
theorem render_visible_spec (f : Filter) (ts : List Todo) :
    (render Filter.all ts).visible = ts ∧
    List.Sublist (render f ts).visible ts ∧
    (∀ t : Todo, t ∈ (render Filter.active ts).visible ↔
      t ∈ ts ∧ t.completed = false) ∧
    (∀ t : Todo, t ∈ (render Filter.completed ts).visible ↔
      t ∈ ts ∧ t.completed = true) := by
  refine ⟨?_, ?_, ?_, ?_⟩
  · simp [render, filterPred]
  · exact List.filter_sublist ts
  · intro t
    simp [render, filterPred, List.mem_filter]
  · intro t
    simp [render, filterPred, List.mem_filter]

/-- Claim C9: the remaining-count text does not depend on the active
filter (it is computed from the unfiltered collection) and reads
1 item left for exactly one remaining task and N items left, plural,
for every other count including zero. -/
theorem render_countText_spec (f : Filter) (ts : List Todo) :
    (render f ts).countText = (render Filter.all ts).countText ∧
    (render f ts).countText =
      (if remainingCount ts = 1 then "1 item left"
       else toString (remainingCount ts) ++ " items left") := by
  constructor
  · rfl
  · unfold render
    by_cases h : remainingCount ts = 1
    · simp only [h, if_pos]
      rfl
    · simp only [h, if_false]
      have hb : (remainingCount ts != 1) = true := by
        simpa using h
      rw [hb]
      simp only [if_pos]
      rw [String.append_assoc, String.append_assoc]
      rfl

theorem map_noMatch : ∀ (l : List Todo) (f : Todo → Todo) (id : String),
    (∀ t : Todo, t.id ≠ id → f t = t) → (∀ t ∈ l, t.id ≠ id) → l.map f = l
  | [], _, _, _, _ => rfl
  | t :: l, f, id, hf, h => by
    have ih := map_noMatch l f id hf (fun a ha => h a (List.mem_cons_of_mem t ha))
    rw [List.map_cons, ih, hf t (h t (List.mem_cons_self t l))]

theorem toggleFlip (id : String) : ∀ l : List Todo,
    (l.map (fun t =>
      if t.id == id then { t with completed := !t.completed } else t)).map
        (fun t =>
          if t.id == id then { t with completed := !t.completed } else t) = l
  | [] => rfl
  | t :: l => by
    have ih := toggleFlip id l
    by_cases h : (t.id == id) = true
    · simp only [List.map_cons, if_pos h, Bool.not_not, ih]
    · simp only [List.map_cons, if_neg h, ih]

/-- Claim C6: toggleTodo keeps the collection length, flips the completed
flag of exactly the tasks whose id matches and leaves every other task
byte-identical, and applying it twice restores the original collection. -/
theorem toggleTodo_spec (s : AppState) (id : String)
    (_hid : ∃ t ∈ s.todos, t.id = id) :
    (toggleTodo id s).todos.length = s.todos.length ∧
    (∀ (i : Nat) (hi : i < s.todos.length)
        (hi2 : i < (toggleTodo id s).todos.length),
      (toggleTodo id s).todos.get ⟨i, hi2⟩ =
        (if (s.todos.get ⟨i, hi⟩).id = id
         then { s.todos.get ⟨i, hi⟩ with
                  completed := !(s.todos.get ⟨i, hi⟩).completed }
         else s.todos.get ⟨i, hi⟩)) ∧
    (toggleTodo id (toggleTodo id s)).todos = s.todos := by
  refine ⟨?_, ?_, ?_⟩
  · simp [toggleTodo, renderStep, saveTodos]
  · intro i hi hi2
    have he : (toggleTodo id s).todos = s.todos.map (fun t =>
        if t.id == id then { t with completed := !t.completed } else t) := rfl
    simp only [he, List.get_eq_getElem, List.getElem_map]
    by_cases h : s.todos[i].id = id
    · simp [h]
    · simp [h]
  · exact toggleFlip id s.todos

theorem toggleTodo_spec_witness :
    (∃ t ∈ oneTaskState.todos, t.id = "a") ∧
    (toggleTodo "a" oneTaskState).todos.length = oneTaskState.todos.length ∧
    (toggleTodo "a" (toggleTodo "a" oneTaskState)).todos = oneTaskState.todos :=
  ⟨by decide, (toggleTodo_spec oneTaskState "a" (by decide)).1,
   (toggleTodo_spec oneTaskState "a" (by decide)).2.2⟩

/-- Claim C7: committing an edit session trims the draft; a nonempty
trimmed draft replaces exactly the matching title with the trimmed draft
(ids and completed flags untouched, length preserved, other tasks
byte-identical), while an empty trimmed draft removes that task, keeping
the rest in order. -/
theorem commit_spec (s : AppState) (todoId draft : String)
    (_hid : ∃ t ∈ s.todos, t.id = todoId) :
    (trim draft ≠ "" →
      (commit todoId draft s).todos.length = s.todos.length ∧
      (∀ (i : Nat) (hi : i < s.todos.length)
          (hi2 : i < (commit todoId draft s).todos.length),
        (commit todoId draft s).todos.get ⟨i, hi2⟩ =
          (if (s.todos.get ⟨i, hi⟩).id = todoId
           then { s.todos.get ⟨i, hi⟩ with title := trim draft }
           else s.todos.get ⟨i, hi⟩))) ∧
    (trim draft = "" →
      List.Sublist (commit todoId draft s).todos s.todos ∧
      (∀ t : Todo, t ∈ (commit todoId draft s).todos ↔
        t ∈ s.todos ∧ t.id ≠ todoId)) := by
  constructor
  · intro hne
    have hc : commit todoId draft s = updateTodoTitle todoId (trim draft) s := by
      unfold commit
      simp [hne]
    have he : (commit todoId draft s).todos = s.todos.map (fun t =>
        if t.id == todoId then { t with title := trim draft } else t) := by
      rw [hc]
      show s.todos.map (fun t =>
        if t.id == todoId then { t with title := trim (trim draft) } else t) = _
      simp only [trim_idem]
    constructor
    · simp [he]
    · intro i hi hi2
      simp only [he, List.get_eq_getElem, List.getElem_map]
      by_cases h : s.todos[i].id = todoId
      · simp [h]
      · simp [h]
  · intro hemp
    have hc : commit todoId draft s = removeTodo todoId s := by
      unfold commit
      simp [hemp]
    rw [hc]
    have he : (removeTodo todoId s).todos =
        s.todos.filter (fun t => t.id != todoId) := rfl
    constructor
    · rw [he]
      exact List.filter_sublist s.todos
    · intro t
      rw [he]
      simp [List.mem_filter]

theorem commit_spec_witness :
    (∃ t ∈ oneTaskState.todos, t.id = "a") ∧
    (commit "a" "New title" oneTaskState).todos.length =
      oneTaskState.todos.length ∧
    (sampleTask ∈ (commit "a" "   " oneTaskState).todos ↔
      sampleTask ∈ oneTaskState.todos ∧ sampleTask.id ≠ "a") :=
  ⟨by decide,
   ((commit_spec oneTaskState "a" "New title" (by decide)).1 (by decide)).1,
   ((commit_spec oneTaskState "a" "   " (by decide)).2 (by decide)).2 sampleTask⟩

/-- Claim C10: toggleTodo and updateTodoTitle on an id that is absent
from the collection leave the collection element-wise unchanged, yet both
rewrite persistent storage with the unchanged collection and trigger a
render pass. -/
theorem absent_id_frame_spec (s : AppState) (id raw : String)
    (h : ∀ t ∈ s.todos, t.id ≠ id) :
    (toggleTodo id s).todos = s.todos ∧
    (toggleTodo id s).storage = StoredValue.parsed (todosToJson s.todos) ∧
    (toggleTodo id s).writes = s.writes + 1 ∧
    (toggleTodo id s).renders = s.renders + 1 ∧
    (updateTodoTitle id raw s).todos = s.todos ∧
    (updateTodoTitle id raw s).storage =
      StoredValue.parsed (todosToJson s.todos) ∧
    (updateTodoTitle id raw s).writes = s.writes + 1 ∧
    (updateTodoTitle id raw s).renders = s.renders + 1 := by
  have hf1 : ∀ t : Todo, t.id ≠ id →
      (if t.id == id then { t with completed := !t.completed } else t) = t := by
    intro t ht
    simp [ht]
  have hf2 : ∀ t : Todo, t.id ≠ id →
      (if t.id == id then { t with title := trim raw } else t) = t := by
    intro t ht
    simp [ht]
  have hm1 := map_noMatch s.todos _ id hf1 h
  have hm2 := map_noMatch s.todos _ id hf2 h
  exact ⟨hm1, congrArg (fun l => StoredValue.parsed (todosToJson l)) hm1,
    rfl, rfl, hm2, congrArg (fun l => StoredValue.parsed (todosToJson l)) hm2,
    rfl, rfl⟩

theorem absent_id_frame_spec_witness :
    (∀ t ∈ oneTaskState.todos, t.id ≠ "x") ∧
    (toggleTodo "x" oneTaskState).todos = oneTaskState.todos ∧
    (updateTodoTitle "x" "z" oneTaskState).todos = oneTaskState.todos ∧
    (toggleTodo "x" oneTaskState).writes = oneTaskState.writes + 1 :=
  ⟨by decide, (absent_id_frame_spec oneTaskState "x" "z" (by decide)).1,
   (absent_id_frame_spec oneTaskState "x" "z" (by decide)).2.2.2.2.1,
   (absent_id_frame_spec oneTaskState "x" "z" (by decide)).2.2.1⟩

end TodoApp
